import Mathlib

/-!
Verification of the deckboxdiff card-collection diff core
(`src/deckboxdiff/diff.py`) in a shallow embedding.

Modelling conventions:
* Python `Decimal` prices are embedded as `Rat`; counts are `Int`
  (diff records carry signed counts).
* Python exceptions are embedded as `Except PyErr`; the constructors mirror
  the exception classes that can actually escape the modelled code paths.
* `dict` and `defaultdict(list)` are embedded as insertion-ordered
  association lists (Python 3.7+ dicts preserve insertion order); lookup is
  by key equality, insertion of a fresh key appends.
* Identity/type key tuples are `List (WithBot String)`: eleven string
  components plus the optional `image_file_name` component (`⊥` when
  `image_url` is `None`).  The lexicographic order on `List (WithBot String)`
  matches CPython tuple comparison on the defined cases (string vs string,
  and equal positions); CPython raises `TypeError` when it must order `None`
  against a `str`, a case the total Lean order extends with `⊥ < some _`.
* `datetime` values are embedded symbolically (`LastUpd.given`), and a
  successful `dateutil` parse of a string as `LastUpd.parsed`; no claim
  depends on calendar arithmetic.
-/

deriving instance DecidableEq for Except

/-- Python exceptions that can escape the modelled code paths. -/
inductive PyErr where
  | keyError
  | typeError
  | valueError
deriving DecidableEq, Repr

/-- The `last_updated` field after `Card.__init__` (diff.py lines 82-87):
either a `datetime` passed through, or the symbolic result of
`dateutil.parser.parse` on a string. -/
inductive LastUpd where
  | parsed (s : String)
  | given (t : Int)
deriving DecidableEq, Repr

/-- The dynamically-typed value handed to `Card.__init__` as `last_updated`:
a `str`, a `datetime`, or one of the "absent" markers pandas can produce
(`NaN` / `None`), which fall into the `else: raise ValueError` branch. -/
inductive PyObj where
  | pyStr (s : String)
  | pyDatetime (t : Int)
  | pyNaN
  | pyNone
deriving DecidableEq, Repr

/-- Embedding of `CONDITION_PRICE_MULTIPLIERS` (diff.py lines 16-24), an association list
from condition string to `Decimal` multiplier. -/
def CONDITION_PRICE_MULTIPLIERS : List (String × Rat) :=
  [("", 1),
   ("Mint", 1),
   ("Near Mint", 1),
   ("Good (Lightly Played)", (85 : Rat)/100),
   ("Played", (70 : Rat)/100),
   ("Heavily Played", (50 : Rat)/100),
   ("Poor", (25 : Rat)/100)]

/-- Association-list lookup by decidable equality: the embedding of Python
`dict` subscript lookup (first — and, with unique keys, only — binding). -/
def alookup {α β : Type} [DecidableEq α] : List (α × β) → α → Option β
  | [], _ => none
  | (k, v) :: t, k' => if k = k' then some v else alookup t k'

/-- Embedding of `Card` (diff.py lines 58-300): one printing-variant line item.
`price`/`my_price` model the `_price`/`_my_price` slots (class default
`None`, set through the `Decimal`-converting property setters). -/
structure Card where
  edition : String
  card_number : String
  name : String
  card_type : String
  cost : String
  rarity : String
  count : Int
  condition : String
  language : String
  foil : String
  signed : String
  artist_proof : String
  altered_art : String
  misprint : String
  promo : String
  textless : String
  image_url : Option String
  last_updated : LastUpd
  price : Option Rat := none
  my_price : Option Rat := none
deriving DecidableEq, Repr

/-- Embedding of `Card.__init__` (diff.py lines 62-87): field assignment plus the
`last_updated` type dispatch, which raises `ValueError` for any value that
is neither a `str` nor a `datetime` (including the pandas NaN produced by a
blank cell). -/
def cardInit (edition card_number name card_type cost rarity : String) (count : Int)
    (condition language foil signed artist_proof altered_art misprint promo textless : String)
    (image_url : Option String) (last_updated : PyObj) : Except PyErr Card :=
  match last_updated with
  | .pyStr s =>
      .ok { edition := edition, card_number := card_number, name := name,
            card_type := card_type, cost := cost, rarity := rarity, count := count,
            condition := condition, language := language, foil := foil,
            signed := signed, artist_proof := artist_proof, altered_art := altered_art,
            misprint := misprint, promo := promo, textless := textless,
            image_url := image_url, last_updated := .parsed s }
  | .pyDatetime t =>
      .ok { edition := edition, card_number := card_number, name := name,
            card_type := card_type, cost := cost, rarity := rarity, count := count,
            condition := condition, language := language, foil := foil,
            signed := signed, artist_proof := artist_proof, altered_art := altered_art,
            misprint := misprint, promo := promo, textless := textless,
            image_url := image_url, last_updated := .given t }
  | _ => .error .valueError

/-- Embedding of `Card.image_file_name` (diff.py lines 218-220): last `/`-separated
segment of the image URL, `None` when the URL is absent. -/
def Card.image_file_name (c : Card) : Option String :=
  c.image_url.map (fun u => (u.splitOn "/").getLastD "")

/-- Key tuples: components are strings, except the final `image_file_name`
slot of the type key, which may be absent (`⊥`). -/
abbrev Key := List (WithBot String)

instance : DecidableEq (WithBot String) :=
  inferInstanceAs (DecidableEq (Option String))

/-- Coerce the optional `image_file_name` component into a key slot. -/
def obot (x : Option String) : WithBot String :=
  match x with
  | none => ⊥
  | some s => (s : WithBot String)

/-- Embedding of `Card.type` (diff.py lines 201-216): the 12-component printing key. -/
def Card.type (c : Card) : Key :=
  [(c.edition : WithBot String), (c.card_number : WithBot String),
   (c.name : WithBot String), (c.language : WithBot String),
   (c.foil : WithBot String), (c.signed : WithBot String),
   (c.artist_proof : WithBot String), (c.altered_art : WithBot String),
   (c.misprint : WithBot String), (c.promo : WithBot String),
   (c.textless : WithBot String), obot c.image_file_name]

/-- Embedding of `Card.identity` (diff.py lines 195-199): the type key extended with the
condition. -/
def Card.identity (c : Card) : Key :=
  c.type ++ [(c.condition : WithBot String)]

/-- Embedding of `Card.condition_adjusted_price` (diff.py lines 159-161):
`None if self._price is None else self._price * CONDITION_PRICE_MULTIPLIERS[self.condition]`.
The subscript raises `KeyError` when the condition string is not a key of
the multiplier table. -/
def Card.condition_adjusted_price (c : Card) : Except PyErr (Option Rat) :=
  match c.price with
  | none => .ok none
  | some p =>
      match alookup CONDITION_PRICE_MULTIPLIERS c.condition with
      | none => .error .keyError
      | some m => .ok (some (p * m))

/-- Embedding of `Card.total_price` (diff.py lines 171-173): `price * count`, `None`
when the price is unset. -/
def Card.total_price (c : Card) : Option Rat :=
  c.price.map (fun p => p * (c.count : Rat))

/-- Embedding of `Card.total_condition_adjusted_price` (diff.py lines 175-177). -/
def Card.total_condition_adjusted_price (c : Card) : Except PyErr (Option Rat) :=
  match c.price with
  | none => .ok none
  | some _ => do
      let cap ← c.condition_adjusted_price
      pure (cap.map (fun v => v * (c.count : Rat)))

/-- Embedding of `Card.total_my_price` (diff.py lines 179-181): `count * my_price`. -/
def Card.total_my_price (c : Card) : Option Rat :=
  c.my_price.map (fun mp => (c.count : Rat) * mp)

/-- Embedding of `Card.clone` (diff.py lines 294-300): deep copy with an optional count
override; in the value model a deep copy is the value itself. -/
def Card.clone (c : Card) (count : Option Int) : Card :=
  match count with
  | none => c
  | some n => { c with count := n }

/-- Embedding of `CardSet` (diff.py lines 303-307): `cards` embeds the
`dict` identity-key → record map, `types` the `defaultdict(list)`
type-key → insertion-ordered record list map. -/
structure CardSet where
  cards : List (Key × Card)
  types : List (Key × List Card)
deriving Repr

/-- Embedding of `CardSet.__init__`. -/
def CardSet.empty : CardSet := ⟨[], []⟩

/-- Embedding of the iteration `self.cards.values()`: the records in insertion order. -/
def CardSet.cardList (s : CardSet) : List Card :=
  s.cards.map Prod.snd

/-- Embedding of `CardSet.match` (diff.py lines 367-371): identity-key lookup, `None`
when absent. -/
def CardSet.match' (s : CardSet) (c : Card) : Option Card :=
  alookup s.cards c.identity

/-- In-place mutation of the value a dict holds under key `k`, as a
functional update of the association list. -/
def mapAtKey {β : Type} (l : List (Key × β)) (k : Key) (f : β → β) : List (Key × β) :=
  l.map (fun kv => if kv.1 = k then (kv.1, f kv.2) else kv)

/-- Embedding of `self.cards[card.identity].count += card.count`: in-place count bump of
the record stored under `k`. -/
def bumpCount (l : List (Key × Card)) (k : Key) (n : Int) : List (Key × Card) :=
  mapAtKey l k (fun c => { c with count := c.count + n })

/-- Embedding of `self.types[card.type].append(card)` on the `defaultdict(list)`:
append to the existing list, or bind the key to a fresh singleton. -/
def appendType (l : List (Key × List Card)) (k : Key) (c : Card) : List (Key × List Card) :=
  match alookup l k with
  | some _ => mapAtKey l k (fun cs => cs ++ [c])
  | none => l ++ [(k, [c])]

/-- Embedding of `CardSet.add_card` (diff.py lines 351-357): aggregate the count into an
existing identity-key binding, else insert the card; always append the card
to the type-key index. -/
def CardSet.add_card (s : CardSet) (c : Card) : CardSet :=
  { cards :=
      match alookup s.cards c.identity with
      | some _ => bumpCount s.cards c.identity c.count
      | none => s.cards ++ [(c.identity, c)]
  , types := appendType s.types c.type c }

/-- Embedding of `CardSet.contains` (diff.py lines 359-362): identity match with equal
count. -/
def CardSet.contains (s : CardSet) (other_card : Card) : Bool :=
  match s.match' other_card with
  | none => false
  | some self_card => self_card.count == other_card.count

/-- Embedding of `CardSet.contains_type` (diff.py lines 364-365). -/
def CardSet.contains_type (s : CardSet) (c : Card) : Bool :=
  (alookup s.types c.type).isSome

/-- Embedding of `CardSet.__eq__` (diff.py lines 323-334): every record of `self` is
`contains`-matched in `other`, and every record of `other` has an identity
match in `self` with the identical count. -/
def CardSet.setEq (s other : CardSet) : Bool :=
  (s.cardList.all (fun self_card => other.contains self_card)) &&
  (other.cardList.all (fun other_card =>
    match s.match' other_card with
    | none => false
    | some self_card => other_card.count == self_card.count))

/-- Embedding of `CardSet.__len__` (diff.py lines 336-337): the signed sum of counts. -/
def CardSet.len (s : CardSet) : Int :=
  (s.cardList.map Card.count).sum

/-- The Python `len()` builtin applied to a `CardSet`: CPython's slot
wrapper requires `__len__` to return a non-negative int and raises
`ValueError` otherwise. -/
def pyLen (s : CardSet) : Except PyErr Nat :=
  if 0 ≤ s.len then .ok s.len.toNat else .error .valueError

/-- Embedding of `CardSet.total_price` (diff.py lines 339-341): sum of the per-record
`total_price` over the records for which it is not `None`. -/
def CardSet.total_price (s : CardSet) : Rat :=
  (s.cardList.filterMap Card.total_price).sum

/-- Python `sum(...)` over per-record `total_condition_adjusted_price`
values: exceptions raised by a summand propagate; a `None` summand would
make the running `Decimal + None` addition raise `TypeError` (unreachable
from `CardSet.total_condition_adjusted_price`, whose filter admits only
priced records). -/
def sumTCAP : List Card → Except PyErr Rat
  | [] => .ok 0
  | c :: t =>
      match c.total_condition_adjusted_price with
      | .error e => .error e
      | .ok none => .error .typeError
      | .ok (some v) =>
          match sumTCAP t with
          | .error e => .error e
          | .ok r => .ok (v + r)

/-- Embedding of `CardSet.total_condition_adjusted_price` (diff.py lines 343-345): sum of
`total_condition_adjusted_price` over the records whose `total_price` is not
`None`. -/
def CardSet.total_condition_adjusted_price (s : CardSet) : Except PyErr Rat :=
  sumTCAP (s.cardList.filter (fun c => c.total_price.isSome))

/-- Embedding of `CardSet.total_my_price` (diff.py lines 347-349). -/
def CardSet.total_my_price (s : CardSet) : Rat :=
  (s.cardList.filterMap Card.total_my_price).sum

/-- The body of the first loop of `CardSet.iter_diff` (diff.py lines
378-384): what a record of `self` contributes to the diff. -/
def diffEmitSelf (other : CardSet) (card : Card) : Option Card :=
  match other.match' card with
  | none => some (card.clone (some (0 - card.count)))
  | some other_card =>
      if other_card.count = card.count then none
      else some (card.clone (some (other_card.count - card.count)))

/-- The body of the second loop of `CardSet.iter_diff` (diff.py lines
386-390): what a record of `other` contributes to the diff. -/
def diffEmitOther (s : CardSet) (other_card : Card) : Option Card :=
  match s.match' other_card with
  | none => some (other_card.clone none)
  | some _ => none

/-- Embedding of `CardSet.iter_diff` (diff.py lines 377-390): the generator's yields, in
order. -/
def CardSet.iter_diff (s other : CardSet) : List Card :=
  s.cardList.filterMap (diffEmitSelf other) ++
    other.cardList.filterMap (diffEmitOther s)

/-- The sort relation of `differences.sort(key=lambda x: x.identity)`:
identity keys compared lexicographically. -/
def keyRel (a b : Card) : Prop :=
  a.identity ≤ b.identity

instance : DecidableRel keyRel :=
  fun a b => inferInstanceAs (Decidable (a.identity ≤ b.identity))

instance : IsTotal Card keyRel :=
  ⟨fun a b => le_total a.identity b.identity⟩

instance : IsTrans Card keyRel :=
  ⟨fun _ _ _ hab hbc => le_trans hab hbc⟩

/-- Embedding of `CardSet.diff_set` (diff.py lines 392-402): sort the emitted diff
records by identity key (CPython's stable sort and the stable insertion
sort agree), then fold them into a fresh `CardSet` via `add_card`. -/
def CardSet.diff_set (s other : CardSet) : CardSet :=
  (List.insertionSort keyRel (s.iter_diff other)).foldl CardSet.add_card CardSet.empty

/-- Embedding of `CardSet.apply_card_pricing` (diff.py lines 407-420).
`self.types[other_card.type]` on the `defaultdict` yields `[]` for an
unseen type key (the insertion side effect of that read is irrelevant here
and not modelled), so `[0]` raises `IndexError`, caught and re-raised as
the price-unavailable `ValueError`; an unknown condition raises `KeyError`,
likewise caught.  A representative whose price is unset makes
`other_card.count * None` raise `TypeError`, which the `except` clause does
NOT catch. -/
def CardSet.apply_card_pricing (s : CardSet) (other_card : Card)
    (condition_adjusted : Bool) : Except PyErr Rat :=
  match (alookup s.types other_card.type).getD [] with
  | [] => .error .valueError
  | rep :: _ =>
      match rep.price with
      | none => .error .typeError
      | some p =>
          let result : Rat := (other_card.count : Rat) * p
          if condition_adjusted then
            match alookup CONDITION_PRICE_MULTIPLIERS other_card.condition with
            | none => .error .valueError
            | some m => .ok (result * m)
          else .ok result

/-- Well-formedness of the `cards` map, true of every `CardSet` Python
builds: each binding maps a card's identity key to that card, and keys are
unique (dict semantics). -/
abbrev CardSet.WFcards (s : CardSet) : Prop :=
  (∀ kv ∈ s.cards, kv.1 = kv.2.identity) ∧ (s.cards.map Prod.fst).Nodup

/-!
### Reference/store model of `add_card` and `__add__`

`CardSet.__add__` (diff.py lines 309-318) inserts the operands' `Card`
objects themselves into the result set, and `add_card`'s aggregation branch
mutates the stored object in place (`count +=`).  Whether those stored
objects are shared with the inputs is invisible to the value model above
(adequate everywhere cards are freshly constructed, as in ingestion and
`diff_set`, which insert new `Card`/`clone` objects), so the union is also
modelled over an explicit object store: `Store` is the heap of `Card`
objects, and a set holds indices (references) into it.
-/

/-- The heap of `Card` objects; a reference is an index. -/
abbrev Store := List Card

/-- A `CardSet` holding references instead of values. -/
structure CardSetRef where
  cards : List (Key × Nat)
  types : List (Key × List Nat)
deriving Repr

def CardSetRef.empty : CardSetRef := ⟨[], []⟩

/-- Embedding of `self.types[card.type].append(card)` in the reference model. -/
def appendTypeRef (l : List (Key × List Nat)) (k : Key) (r : Nat) : List (Key × List Nat) :=
  match alookup l k with
  | some _ => l.map (fun kv => if kv.1 = k then (kv.1, kv.2 ++ [r]) else kv)
  | none => l ++ [(k, [r])]

/-- Embedding of `CardSet.add_card` (diff.py lines 351-357) in the reference model: the
aggregation branch updates the store cell the existing binding points to;
the insertion branch binds the identity key to the incoming reference
itself (no copy is made). -/
def addCardRef (st : Store) (s : CardSetRef) (r : Nat) : Store × CardSetRef :=
  match st.get? r with
  | none => (st, s)
  | some c =>
      match alookup s.cards c.identity with
      | some r0 =>
          (match st.get? r0 with
           | none => st
           | some c0 => st.set r0 { c0 with count := c0.count + c.count },
           { s with types := appendTypeRef s.types c.type r })
      | none =>
          (st, { cards := s.cards ++ [(c.identity, r)],
                 types := appendTypeRef s.types c.type r })

/-- Embedding of `CardSet.__add__` (diff.py lines 309-318) in the reference model: fold
the records of `self`, then of `other_card_set`, into a fresh set via
`add_card`, threading the store. -/
def unionAdd (st : Store) (a b : CardSetRef) : Store × CardSetRef :=
  let p1 := a.cards.foldl (fun p kv => addCardRef p.1 p.2 kv.2) (st, CardSetRef.empty)
  b.cards.foldl (fun p kv => addCardRef p.1 p.2 kv.2) p1

/-!
### Concrete example data used by witnesses and counterexamples
-/

/-- A baseline well-formed card; fields any concrete example shares. -/
def baseCard : Card :=
  { edition := "M1", card_number := "001", name := "CardX",
    card_type := "Creature", cost := "2W", rarity := "Rare",
    count := 1, condition := "", language := "English",
    foil := "", signed := "", artist_proof := "", altered_art := "",
    misprint := "", promo := "", textless := "",
    image_url := none, last_updated := .given 0 }

/-- A card distinguished by name, with a given count. -/
def namedCard (n : String) (cnt : Int) : Card :=
  { baseCard with name := n, count := cnt }

/-- A one-binding `CardSet` literal as Python would have built it. -/
def singletonSet (c : Card) : CardSet :=
  ⟨[(c.identity, c)], [(c.type, [c])]⟩

/-- C1/C4 example data: a reference set holding CardX (count 4) and CardY
(count 1), ingested in that order. -/
def aEx : CardSet :=
  ⟨[((namedCard "CardX" 4).identity, namedCard "CardX" 4),
    ((namedCard "CardY" 1).identity, namedCard "CardY" 1)],
   [((namedCard "CardX" 4).type, [namedCard "CardX" 4]),
    ((namedCard "CardY" 1).type, [namedCard "CardY" 1])]⟩

/-- C1 example data: the comparison set holding CardX with count 6. -/
def bEx : CardSet := singletonSet (namedCard "CardX" 6)

/-- C4 example data: three identity keys ingested in reverse alphabetical
order. -/
def revSet : CardSet :=
  ⟨[((namedCard "C" 1).identity, namedCard "C" 1),
    ((namedCard "B" 1).identity, namedCard "B" 1),
    ((namedCard "A" 1).identity, namedCard "A" 1)],
   [((namedCard "C" 1).type, [namedCard "C" 1]),
    ((namedCard "B" 1).type, [namedCard "B" 1]),
    ((namedCard "A" 1).type, [namedCard "A" 1])]⟩

/-- C3 example data: a set whose only record for the queried type key has
no price. -/
def noPriceSet : CardSet := singletonSet (namedCard "A" 1)

/-- C3 example data: two same-printing records in different conditions,
prices 3 then 4; the first-inserted one is the pricing representative. -/
def pricedSet : CardSet :=
  (CardSet.empty.add_card { namedCard "A" 1 with condition := "Mint", price := some 3 }).add_card
    { namedCard "A" 1 with condition := "Played", price := some 4 }

/-- C7 example data: one priced record (count 2, price 5.00) and one
unpriced record (count 3). -/
def exPriceSet : CardSet :=
  ⟨[(({ namedCard "Priced" 2 with price := some 5 } : Card).identity,
      { namedCard "Priced" 2 with price := some 5 }),
    ((namedCard "Unpriced" 3).identity, namedCard "Unpriced" 3)],
   [(({ namedCard "Priced" 2 with price := some 5 } : Card).type,
      [{ namedCard "Priced" 2 with price := some 5 }]),
    ((namedCard "Unpriced" 3).type, [namedCard "Unpriced" 3])]⟩

/-- C8 example data: two records sharing one identity key, counts 2 and 3,
living in the store; collection A references cell 0, collection B cell 1. -/
def storeEx : Store := [namedCard "Shared" 2, namedCard "Shared" 3]

def aRefEx : CardSetRef :=
  ⟨[((namedCard "Shared" 2).identity, 0)], [((namedCard "Shared" 2).type, [0])]⟩

def bRefEx : CardSetRef :=
  ⟨[((namedCard "Shared" 3).identity, 1)], [((namedCard "Shared" 3).type, [1])]⟩

/-!
### Association-list and key lemmas
-/

theorem alookup_eq_none {α β : Type} [DecidableEq α] {l : List (α × β)} {k : α} :
    alookup l k = none ↔ k ∉ l.map Prod.fst := by
  induction l with
  | nil => simp [alookup]
  | cons kv t ih =>
      rcases kv with ⟨k', v⟩
      by_cases h : k' = k
      · subst h
        simp [alookup]
      · simp [alookup, h, ih, Ne.symm h]

theorem alookup_mem {α β : Type} [DecidableEq α] {l : List (α × β)} {k : α} {v : β}
    (h : alookup l k = some v) : (k, v) ∈ l := by
  induction l with
  | nil => simp [alookup] at h
  | cons kv t ih =>
      rcases kv with ⟨k', v'⟩
      by_cases hk : k' = k
      · subst hk
        simp [alookup] at h
        simp [h]
      · simp [alookup, hk] at h
        exact List.mem_cons_of_mem _ (ih h)

theorem mem_alookup {α β : Type} [DecidableEq α] {l : List (α × β)} {k : α} {v : β}
    (hnd : (l.map Prod.fst).Nodup) (h : (k, v) ∈ l) : alookup l k = some v := by
  induction l with
  | nil => simp at h
  | cons kv t ih =>
      rcases kv with ⟨k', v'⟩
      rcases List.mem_cons.1 h with h' | h'
      · rw [Prod.mk.injEq] at h'
        simp [alookup, h'.1, h'.2]
      · have hk : k' ≠ k := by
          intro he
          subst he
          exact (List.nodup_cons.1 hnd).1 (List.mem_map.2 ⟨(k', v), h', rfl⟩)
        simp [alookup, hk]
        exact ih (List.nodup_cons.1 hnd).2 h'

theorem alookup_append {α β : Type} [DecidableEq α] (l1 l2 : List (α × β)) (k : α) :
    alookup (l1 ++ l2) k =
      match alookup l1 k with
      | some v => some v
      | none => alookup l2 k := by
  induction l1 with
  | nil => simp [alookup]
  | cons kv t ih =>
      rcases kv with ⟨k', v'⟩
      by_cases hk : k' = k
      · simp [alookup, hk]
      · simp [alookup, hk, ih]

theorem mapAtKey_keys {β : Type} (l : List (Key × β)) (k : Key) (f : β → β) :
    (mapAtKey l k f).map Prod.fst = l.map Prod.fst := by
  unfold mapAtKey
  rw [List.map_map]
  apply List.map_congr_left
  intro kv _
  by_cases h : kv.1 = k <;> simp [h]

theorem alookup_mapAtKey_self {β : Type} (l : List (Key × β)) (k : Key) (f : β → β) :
    alookup (mapAtKey l k f) k = (alookup l k).map f := by
  induction l with
  | nil => simp [mapAtKey, alookup]
  | cons kv t ih =>
      rcases kv with ⟨k', v'⟩
      simp only [mapAtKey, List.map_cons] at ih ⊢
      by_cases hk : k' = k
      · subst hk
        rw [if_pos rfl]
        simp [alookup]
      · rw [if_neg hk]
        simp [alookup, hk, ih]

/-- The operation `clone` never changes the identity key (the count is not a key
component). -/
theorem clone_identity (c : Card) (x : Option Int) :
    (c.clone x).identity = c.identity := by
  cases x <;> rfl

theorem clone_count (c : Card) (n : Int) : (c.clone (some n)).count = n := rfl

/-- Updating only the count leaves the identity key unchanged. -/
theorem setCount_identity (c : Card) (n : Int) :
    ({ c with count := n } : Card).identity = c.identity := rfl

/-- Under well-formedness, the identity keys of the stored records are
exactly the dict keys. -/
theorem wf_cardList_identities {s : CardSet} (h : s.WFcards) :
    s.cardList.map Card.identity = s.cards.map Prod.fst := by
  rw [CardSet.cardList, List.map_map]
  apply List.map_congr_left
  intro kv hkv
  exact (h.1 kv hkv).symm

/-- Under well-formedness, a stored record is found by `match`-style lookup
at its own identity key. -/
theorem wf_alookup_self {s : CardSet} (h : s.WFcards) {c : Card}
    (hc : c ∈ s.cardList) : alookup s.cards c.identity = some c := by
  rcases List.mem_map.1 hc with ⟨kv, hkv, hsnd⟩
  have hfst : kv.1 = c.identity := by
    rw [h.1 kv hkv, hsnd]
  apply mem_alookup h.2
  have : kv = (c.identity, c) := by
    rcases kv with ⟨a, b⟩
    simp only at hsnd hfst
    rw [hfst, hsnd]
  rw [this] at hkv
  exact hkv

/-!
### Diff emission lemmas
-/

/-- Both emission functions preserve the identity key of their source
record. -/
theorem diffEmitSelf_identity {other : CardSet} {c d : Card}
    (h : diffEmitSelf other c = some d) : d.identity = c.identity := by
  rcases hm : other.match' c with _ | oc
  · simp only [diffEmitSelf, hm] at h
    injection h with h
    rw [← h, clone_identity]
  · simp only [diffEmitSelf, hm] at h
    by_cases hc : oc.count = c.count
    · rw [if_pos hc] at h
      cases h
    · rw [if_neg hc] at h
      injection h with h
      rw [← h, clone_identity]

theorem diffEmitOther_identity {s : CardSet} {oc d : Card}
    (h : diffEmitOther s oc = some d) : d.identity = oc.identity := by
  rcases hm : s.match' oc with _ | sc
  · simp only [diffEmitOther, hm] at h
    injection h with h
    rw [← h, clone_identity]
  · simp only [diffEmitOther, hm] at h
    cases h

/-- Identities surviving a `filterMap` by an identity-preserving function
are a subset of the original identities. -/
theorem mem_map_identity_filterMap {f : Card → Option Card}
    (hf : ∀ c d, f c = some d → d.identity = c.identity) {l : List Card} {k : Key}
    (h : k ∈ (l.filterMap f).map Card.identity) : k ∈ l.map Card.identity := by
  rcases List.mem_map.1 h with ⟨d, hd, hk⟩
  rcases List.mem_filterMap.1 hd with ⟨c, hc, hfc⟩
  exact List.mem_map.2 ⟨c, hc, by rw [← hk, hf c d hfc]⟩

/-- A `filterMap` by an identity-preserving function keeps identities
pairwise-distinct. -/
theorem nodup_map_identity_filterMap {f : Card → Option Card}
    (hf : ∀ c d, f c = some d → d.identity = c.identity) {l : List Card}
    (h : (l.map Card.identity).Nodup) : ((l.filterMap f).map Card.identity).Nodup := by
  induction l with
  | nil => simp
  | cons c t ih =>
      rw [List.map_cons, List.nodup_cons] at h
      rcases hfc : f c with _ | d
      · rw [List.filterMap_cons_none hfc]
        exact ih h.2
      · rw [List.filterMap_cons_some hfc, List.map_cons, List.nodup_cons]
        refine ⟨fun hmem => h.1 ?_, ih h.2⟩
        rw [hf c d hfc] at hmem
        exact mem_map_identity_filterMap hf hmem

/-- The records emitted by `iter_diff` carry pairwise-distinct identity
keys: the self-part inherits distinctness from `self`, the other-part from
`other`, and the other-part's identities are absent from `self`. -/
theorem iter_diff_nodup (A B : CardSet) (hA : A.WFcards) (hB : B.WFcards) :
    ((A.iter_diff B).map Card.identity).Nodup := by
  rw [CardSet.iter_diff, List.map_append, List.nodup_append]
  refine ⟨nodup_map_identity_filterMap (fun c d => diffEmitSelf_identity)
      (by rw [wf_cardList_identities hA]; exact hA.2),
    nodup_map_identity_filterMap (fun c d => diffEmitOther_identity)
      (by rw [wf_cardList_identities hB]; exact hB.2), ?_⟩
  intro k hk1 hk2
  have hk1' : k ∈ A.cardList.map Card.identity :=
    mem_map_identity_filterMap (fun c d => diffEmitSelf_identity) hk1
  rcases List.mem_map.1 hk2 with ⟨d, hd, hkd⟩
  rcases List.mem_filterMap.1 hd with ⟨oc, hoc, hfoc⟩
  have hmatch : A.match' oc = none := by
    rcases hm : A.match' oc with _ | sc
    · rfl
    · simp only [diffEmitOther, hm] at hfoc
      cases hfoc
  have hnot : oc.identity ∉ A.cards.map Prod.fst := alookup_eq_none.1 hmatch
  rw [← hkd, diffEmitOther_identity hfoc] at hk1'
  rw [wf_cardList_identities hA] at hk1'
  exact hnot hk1'

/-- Membership in the emitted diff sequence, characterized record by
record. -/
theorem iter_diff_mem (A B : CardSet) (d : Card) :
    d ∈ A.iter_diff B ↔
      ((∃ c ∈ A.cardList, B.match' c = none ∧ d = c.clone (some (0 - c.count))) ∨
       (∃ c ∈ A.cardList, ∃ oc, B.match' c = some oc ∧ oc.count ≠ c.count ∧
          d = c.clone (some (oc.count - c.count))) ∨
       (∃ oc ∈ B.cardList, A.match' oc = none ∧ d = oc.clone none)) := by
  rw [CardSet.iter_diff, List.mem_append, List.mem_filterMap, List.mem_filterMap]
  constructor
  · rintro (⟨c, hc, he⟩ | ⟨oc, hoc, he⟩)
    · rcases hm : B.match' c with _ | oc
      · simp only [diffEmitSelf, hm] at he
        injection he with he
        exact Or.inl ⟨c, hc, hm, he.symm⟩
      · simp only [diffEmitSelf, hm] at he
        by_cases hcount : oc.count = c.count
        · rw [if_pos hcount] at he
          cases he
        · rw [if_neg hcount] at he
          injection he with he
          exact Or.inr (Or.inl ⟨c, hc, oc, hm, hcount, he.symm⟩)
    · rcases hm : A.match' oc with _ | sc
      · simp only [diffEmitOther, hm] at he
        injection he with he
        exact Or.inr (Or.inr ⟨oc, hoc, hm, he.symm⟩)
      · simp only [diffEmitOther, hm] at he
        cases he
  · rintro (⟨c, hc, hm, hd⟩ | ⟨c, hc, oc, hm, hne, hd⟩ | ⟨oc, hoc, hm, hd⟩)
    · refine Or.inl ⟨c, hc, ?_⟩
      simp only [diffEmitSelf, hm]
      rw [hd]
    · refine Or.inl ⟨c, hc, ?_⟩
      simp only [diffEmitSelf, hm]
      rw [if_neg hne, hd]
    · refine Or.inr ⟨oc, hoc, ?_⟩
      simp only [diffEmitOther, hm]
      rw [hd]

/-!
### add_card and diff_set lemmas
-/

/-- Applying `add_card` on a fresh identity key appends the binding. -/
theorem add_card_cards_of_none {s : CardSet} {c : Card}
    (h : alookup s.cards c.identity = none) :
    (s.add_card c).cards = s.cards ++ [(c.identity, c)] := by
  simp only [CardSet.add_card, h]

/-- Applying `add_card` on an existing identity key bumps the stored count in
place. -/
theorem add_card_cards_of_some {s : CardSet} {c c0 : Card}
    (h : alookup s.cards c.identity = some c0) :
    (s.add_card c).cards = bumpCount s.cards c.identity c.count := by
  simp only [CardSet.add_card, h]

/-- Folding `add_card` over records whose identity keys are fresh and
pairwise distinct appends their bindings in order. -/
theorem foldl_add_card_cards (l : List Card) (s : CardSet)
    (hnew : ∀ c ∈ l, alookup s.cards c.identity = none)
    (hnd : (l.map Card.identity).Nodup) :
    (l.foldl CardSet.add_card s).cards = s.cards ++ l.map (fun c => (c.identity, c)) := by
  induction l generalizing s with
  | nil => simp
  | cons c t ih =>
      rw [List.foldl_cons]
      have hc : alookup s.cards c.identity = none := hnew c (List.mem_cons_self c t)
      have hcards : (s.add_card c).cards = s.cards ++ [(c.identity, c)] :=
        add_card_cards_of_none hc
      rw [List.map_cons, List.nodup_cons] at hnd
      have hnew' : ∀ c' ∈ t, alookup (s.add_card c).cards c'.identity = none := by
        intro c' hc'
        rw [hcards, alookup_append]
        rw [hnew c' (List.mem_cons_of_mem c hc')]
        have hne : c.identity ≠ c'.identity := by
          intro he
          exact hnd.1 (he ▸ List.mem_map.2 ⟨c', hc', rfl⟩)
        simp [alookup, hne]
      rw [ih (s.add_card c) hnew' hnd.2, hcards, List.append_assoc]
      rfl

/-- The records of `diff_set` are exactly the sorted diff sequence. -/
theorem diff_set_cardList (A B : CardSet) (hA : A.WFcards) (hB : B.WFcards) :
    (A.diff_set B).cardList = List.insertionSort keyRel (A.iter_diff B) := by
  have hperm : List.Perm (List.insertionSort keyRel (A.iter_diff B)) (A.iter_diff B) :=
    List.perm_insertionSort keyRel (A.iter_diff B)
  have hnd : ((List.insertionSort keyRel (A.iter_diff B)).map Card.identity).Nodup :=
    ((hperm.map Card.identity).nodup_iff).2 (iter_diff_nodup A B hA hB)
  have hcards := foldl_add_card_cards (List.insertionSort keyRel (A.iter_diff B))
    CardSet.empty (fun c _ => rfl) hnd
  rw [CardSet.diff_set, CardSet.cardList, hcards]
  simp only [CardSet.empty, List.nil_append, List.map_map]
  exact List.map_id _

/-- The operation `diff_set` preserves well-formedness of the diff records' key map. -/
theorem diff_set_wf (A B : CardSet) (hA : A.WFcards) (hB : B.WFcards) :
    (A.diff_set B).WFcards := by
  have hperm : List.Perm (List.insertionSort keyRel (A.iter_diff B)) (A.iter_diff B) :=
    List.perm_insertionSort keyRel (A.iter_diff B)
  have hnd : ((List.insertionSort keyRel (A.iter_diff B)).map Card.identity).Nodup :=
    ((hperm.map Card.identity).nodup_iff).2 (iter_diff_nodup A B hA hB)
  have hcards := foldl_add_card_cards (List.insertionSort keyRel (A.iter_diff B))
    CardSet.empty (fun c _ => rfl) hnd
  constructor
  · intro kv hkv
    rw [CardSet.diff_set, hcards] at hkv
    simp only [CardSet.empty, List.nil_append] at hkv
    rcases List.mem_map.1 hkv with ⟨c, _, rfl⟩
    rfl
  · rw [CardSet.diff_set, hcards]
    simp only [CardSet.empty, List.nil_append, List.map_map]
    have : (List.map (Prod.fst ∘ fun c => (c.identity, c))
        (List.insertionSort keyRel (A.iter_diff B)))
        = (List.insertionSort keyRel (A.iter_diff B)).map Card.identity := rfl
    rw [this]
    exact hnd

/-!
### Price-sum lemmas
-/

theorem total_price_isSome (c : Card) : c.total_price.isSome = c.price.isSome := by
  rcases hp : c.price with _ | p <;> simp [Card.total_price, hp]

/-- The collection total over defined `total_price` values, expressed over
the per-record fields. -/
theorem sum_filterMap_total_price (l : List Card) :
    (l.filterMap Card.total_price).sum =
      ((l.filter (fun c => c.price.isSome)).map
        (fun c => c.price.getD 0 * (c.count : Rat))).sum := by
  induction l with
  | nil => rfl
  | cons c t ih =>
      rcases hp : c.price with _ | p
      · have h1 : c.total_price = none := by simp [Card.total_price, hp]
        rw [List.filterMap_cons_none h1, List.filter_cons_of_neg (by simp [hp]), ih]
      · have h1 : c.total_price = some (p * (c.count : Rat)) := by
          simp [Card.total_price, hp]
        rw [List.filterMap_cons_some h1, List.filter_cons_of_pos (by simp [hp]),
          List.map_cons, List.sum_cons, List.sum_cons, ih, hp]
        simp

theorem sum_filterMap_total_my_price (l : List Card) :
    (l.filterMap Card.total_my_price).sum =
      ((l.filter (fun c => c.my_price.isSome)).map
        (fun c => (c.count : Rat) * c.my_price.getD 0)).sum := by
  induction l with
  | nil => rfl
  | cons c t ih =>
      rcases hp : c.my_price with _ | p
      · have h1 : c.total_my_price = none := by simp [Card.total_my_price, hp]
        rw [List.filterMap_cons_none h1, List.filter_cons_of_neg (by simp [hp]), ih]
      · have h1 : c.total_my_price = some ((c.count : Rat) * p) := by
          simp [Card.total_my_price, hp]
        rw [List.filterMap_cons_some h1, List.filter_cons_of_pos (by simp [hp]),
          List.map_cons, List.sum_cons, List.sum_cons, ih, hp]
        simp

/-- On a list of priced records with recognized conditions, the
condition-adjusted sum succeeds and equals the pointwise
price × multiplier × count sum. -/
theorem sumTCAP_ok (l : List Card)
    (hp : ∀ c ∈ l, c.price.isSome)
    (hm : ∀ c ∈ l, (alookup CONDITION_PRICE_MULTIPLIERS c.condition).isSome) :
    sumTCAP l = .ok ((l.map (fun c =>
      c.price.getD 0 * (alookup CONDITION_PRICE_MULTIPLIERS c.condition).getD 1 *
        (c.count : Rat))).sum) := by
  induction l with
  | nil => rfl
  | cons c t ih =>
      rcases Option.isSome_iff_exists.1 (hp c (List.mem_cons_self c t)) with ⟨p, hpc⟩
      rcases Option.isSome_iff_exists.1 (hm c (List.mem_cons_self c t)) with ⟨m, hmc⟩
      have hcap : c.condition_adjusted_price = .ok (some (p * m)) := by
        simp [Card.condition_adjusted_price, hpc, hmc]
      have htcap : c.total_condition_adjusted_price = .ok (some (p * m * (c.count : Rat))) := by
        simp [Card.total_condition_adjusted_price, hpc, hcap]
      have iht := ih (fun c' hc' => hp c' (List.mem_cons_of_mem c hc'))
        (fun c' hc' => hm c' (List.mem_cons_of_mem c hc'))
      simp only [sumTCAP, htcap, iht, List.map_cons, List.sum_cons, hpc, hmc]
      simp

/-!
### setEq extraction lemmas
-/

theorem setEq_self_side {A B : CardSet} (heq : A.setEq B = true) :
    ∀ c ∈ A.cardList, ∃ oc, B.match' c = some oc ∧ oc.count = c.count := by
  intro c hc
  have h := heq
  rw [CardSet.setEq, Bool.and_eq_true] at h
  have h2 := (List.all_eq_true.1 h.1) c hc
  rcases hmc : B.match' c with _ | oc
  · rw [CardSet.contains, hmc] at h2
    cases h2
  · rw [CardSet.contains, hmc] at h2
    exact ⟨oc, rfl, by simpa using h2⟩

theorem setEq_other_side {A B : CardSet} (heq : A.setEq B = true) :
    ∀ oc ∈ B.cardList, ∃ sc, A.match' oc = some sc := by
  intro oc hoc
  have h := heq
  rw [CardSet.setEq, Bool.and_eq_true] at h
  have h2 := (List.all_eq_true.1 h.2) oc hoc
  rcases hmc : A.match' oc with _ | sc
  · rw [hmc] at h2
    cases h2
  · exact ⟨sc, rfl⟩

/-- A `filterMap` by an everywhere-`some` function is a `map`. -/
theorem filterMap_all_some {l : List Card} {f : Card → Option Card} {g : Card → Card}
    (h : ∀ c ∈ l, f c = some (g c)) : l.filterMap f = l.map g := by
  induction l with
  | nil => rfl
  | cons c t ih =>
      rw [List.filterMap_cons_some (h c (List.mem_cons_self c t)), List.map_cons,
        ih (fun c' hc' => h c' (List.mem_cons_of_mem c hc'))]

theorem sum_map_negCount (l : List Card) :
    (l.map (fun c => (0 : Int) - c.count)).sum = -((l.map Card.count).sum) := by
  induction l with
  | nil => simp
  | cons c t ih =>
      simp only [List.map_cons, List.sum_cons, ih]
      ring

/-!
### Claim theorems
-/

/-- C1: for collections `A` and `B`, `A.iter_diff(B)` emits exactly: a clone
with count `-c.count` for every record `c` of `A` with no identity-key match
in `B`; a clone with count `o.count - c.count` for every record `c` of `A`
whose match `o` in `B` has a different count; nothing for matched records
with equal counts; and an unchanged clone for every record of `B` with no
identity-key match in `A` — each emitted identity key exactly once. -/
theorem claim1_diff_emission (A B : CardSet) (hA : A.WFcards) (hB : B.WFcards) :
    (∀ d, d ∈ A.iter_diff B ↔
      ((∃ c ∈ A.cardList, B.match' c = none ∧ d = c.clone (some (0 - c.count))) ∨
       (∃ c ∈ A.cardList, ∃ oc, B.match' c = some oc ∧ oc.count ≠ c.count ∧
          d = c.clone (some (oc.count - c.count))) ∨
       (∃ oc ∈ B.cardList, A.match' oc = none ∧ d = oc.clone none))) ∧
    ((A.iter_diff B).map Card.identity).Nodup :=
  ⟨fun d => iter_diff_mem A B d, iter_diff_nodup A B hA hB⟩

/-- C4: for any two collections, the record sequence of `diff_set` is sorted
ascending by identity key (lexicographic on the key tuple), regardless of
the ingestion order of the inputs. -/
theorem claim4_diff_set_sorted (A B : CardSet) (hA : A.WFcards) (hB : B.WFcards) :
    List.Sorted keyRel ((A.diff_set B).cardList) := by
  rw [diff_set_cardList A B hA hB]
  exact List.sorted_insertionSort keyRel (A.iter_diff B)

/-- C5: for collections that are equal in the sense of `CardSet.__eq__`
(every record of each has an identity-key match with identical count in the
other), the diff set is the empty collection. -/
theorem claim5_diff_set_empty (A B : CardSet) (heq : A.setEq B = true) :
    A.diff_set B = CardSet.empty := by
  have h1 : A.cardList.filterMap (diffEmitSelf B) = [] := by
    rw [List.filterMap_eq_nil_iff]
    intro c hc
    rcases setEq_self_side heq c hc with ⟨oc, hmc, hcount⟩
    simp [diffEmitSelf, hmc, hcount]
  have h2 : B.cardList.filterMap (diffEmitOther A) = [] := by
    rw [List.filterMap_eq_nil_iff]
    intro oc hoc
    rcases setEq_other_side heq oc hoc with ⟨sc, hmc⟩
    simp [diffEmitOther, hmc]
  rw [CardSet.diff_set, CardSet.iter_diff, h1, h2]
  rfl

/-- C1 witness: in the concrete reference/comparison pair, CardX (4 vs 6)
contributes a clone with count `6 - 4`, and emitted identities are
pairwise distinct. -/
theorem claim1_witness :
    (namedCard "CardX" 4).clone (some ((6 : Int) - 4)) ∈ aEx.iter_diff bEx ∧
    ((aEx.iter_diff bEx).map Card.identity).Nodup := by
  have h := claim1_diff_emission aEx bEx (by decide) (by decide)
  exact ⟨(h.1 _).mpr (Or.inr (Or.inl ⟨namedCard "CardX" 4, by decide,
    namedCard "CardX" 6, by decide, by decide, rfl⟩)), h.2⟩

/-- C4 witness: three identity keys ingested in reverse order still come
out of `diff_set` sorted. -/
theorem claim4_witness :
    List.Sorted keyRel ((revSet.diff_set CardSet.empty).cardList) ∧
    revSet.cardList.map Card.name = ["C", "B", "A"] :=
  ⟨claim4_diff_set_sorted revSet CardSet.empty (by decide) (by decide), by decide⟩

/-- C5 witness: a collection diffed against an equal collection yields the
empty collection. -/
theorem claim5_witness :
    (singletonSet (namedCard "Same" 2)).diff_set (singletonSet (namedCard "Same" 2)) =
      CardSet.empty :=
  claim5_diff_set_empty _ _ (by decide)

/-- C2: `add_card` aggregates an existing identity-key binding by bumping
its count (never replacing the record, and leaving the key set unchanged),
inserts a fresh identity key otherwise, preserves key uniqueness (at most
one record per identity key), and in both cases appends the card to the
type-key index list. -/
theorem claim2_add_card (s : CardSet) (c : Card) (hs : s.WFcards) :
    (∀ c0, s.match' c = some c0 →
        (s.add_card c).match' c = some { c0 with count := c0.count + c.count } ∧
        (s.add_card c).cards.map Prod.fst = s.cards.map Prod.fst) ∧
    (s.match' c = none →
        (s.add_card c).match' c = some c ∧
        (s.add_card c).cards.map Prod.fst = s.cards.map Prod.fst ++ [c.identity]) ∧
    (s.add_card c).WFcards ∧
    alookup (s.add_card c).types c.type = some ((alookup s.types c.type).getD [] ++ [c]) := by
  refine ⟨?_, ?_, ?_, ?_⟩
  · intro c0 h
    rw [CardSet.match'] at h
    constructor
    · rw [CardSet.match', add_card_cards_of_some h, bumpCount, alookup_mapAtKey_self, h]
      rfl
    · rw [add_card_cards_of_some h, bumpCount, mapAtKey_keys]
  · intro h
    rw [CardSet.match'] at h
    constructor
    · rw [CardSet.match', add_card_cards_of_none h, alookup_append, h]
      simp [alookup]
    · rw [add_card_cards_of_none h, List.map_append]
      rfl
  · rcases h : alookup s.cards c.identity with _ | c0
    · constructor
      · intro kv hkv
        rw [add_card_cards_of_none h] at hkv
        rcases List.mem_append.1 hkv with h' | h'
        · exact hs.1 kv h'
        · rcases List.mem_singleton.1 h'
          rfl
      · rw [add_card_cards_of_none h, List.map_append, List.nodup_append]
        refine ⟨hs.2, List.nodup_singleton _, ?_⟩
        intro k hk hk'
        rcases List.mem_singleton.1 hk'
        exact (alookup_eq_none.1 h) hk
    · constructor
      · intro kv hkv
        rw [add_card_cards_of_some h, bumpCount, mapAtKey] at hkv
        rcases List.mem_map.1 hkv with ⟨kv0, hkv0, heq⟩
        by_cases hk : kv0.1 = c.identity
        · rw [if_pos hk] at heq
          rw [← heq]
          exact (hs.1 kv0 hkv0).trans (setCount_identity kv0.2 _).symm
        · rw [if_neg hk] at heq
          rw [← heq]
          exact hs.1 kv0 hkv0
      · rw [add_card_cards_of_some h, bumpCount, mapAtKey_keys]
        exact hs.2
  · rw [CardSet.add_card]
    rcases h : alookup s.types c.type with _ | lst
    · simp only [appendType, h]
      rw [alookup_append, h]
      simp [alookup]
    · simp only [appendType, h]
      rw [alookup_mapAtKey_self, h]
      rfl

/-- C2 witness: aggregating a second record (count 3) into an existing
identity key (count 2) yields one record with count 5 and an unchanged key
set, and the card lands in the type-key index. -/
theorem claim2_witness :
    ((singletonSet (namedCard "Agg" 2)).add_card (namedCard "Agg" 3)).match'
        (namedCard "Agg" 3) = some { (namedCard "Agg" 2 : Card) with count := 2 + 3 } ∧
    (((singletonSet (namedCard "Agg" 2)).add_card (namedCard "Agg" 3)).cards.map
        Prod.fst).Nodup ∧
    alookup ((singletonSet (namedCard "Agg" 2)).add_card (namedCard "Agg" 3)).types
        (namedCard "Agg" 3).type = some [namedCard "Agg" 2, namedCard "Agg" 3] := by
  have h := claim2_add_card (singletonSet (namedCard "Agg" 2)) (namedCard "Agg" 3) (by decide)
  refine ⟨(h.1 (namedCard "Agg" 2) (by decide)).1, h.2.2.1.2, ?_⟩
  rw [h.2.2.2]
  decide

/-- C3 (code-bug demonstration): pricing against an unseen type key fails
with the catchable price-unavailable `ValueError`; pricing against a
representative whose price is unset raises an uncaught `TypeError`
(`other_card.count * None`) instead of the price-unavailable error; and on
the happy path the first-inserted record's price is multiplied by the
queried count (and condition multiplier). -/
theorem claim3_pricing_behavior :
    CardSet.empty.apply_card_pricing (namedCard "A" 2) false = .error .valueError ∧
    noPriceSet.apply_card_pricing (namedCard "A" 2) false = .error .typeError ∧
    pricedSet.apply_card_pricing (namedCard "A" 2) false = .ok 6 ∧
    pricedSet.apply_card_pricing { namedCard "A" 2 with condition := "Played" } true =
      .ok ((21 : Rat)/5) := by
  refine ⟨by decide, by decide, ?_, ?_⟩
  · simp [pricedSet, CardSet.apply_card_pricing, CardSet.add_card, CardSet.empty,
      appendType, mapAtKey, alookup, namedCard, baseCard, Card.type, Card.identity,
      Card.image_file_name, obot]
    norm_num
  · simp [pricedSet, CardSet.apply_card_pricing, CardSet.add_card, CardSet.empty,
      appendType, mapAtKey, alookup, namedCard, baseCard, Card.type, Card.identity,
      Card.image_file_name, obot, CONDITION_PRICE_MULTIPLIERS]
    norm_num

/-- C7: each collection total (`total_price`, `total_my_price`,
`total_condition_adjusted_price`) is the sum of the corresponding
per-record totals over exactly the records whose underlying value is
defined; undefined records are excluded, not zero-filled and not an error
(for the condition-adjusted total, provided every condition is in the
multiplier table). -/
theorem claim7_totals (s : CardSet)
    (hcond : ∀ c ∈ s.cardList, (alookup CONDITION_PRICE_MULTIPLIERS c.condition).isSome) :
    s.total_price = ((s.cardList.filter (fun c => c.price.isSome)).map
        (fun c => c.price.getD 0 * (c.count : Rat))).sum ∧
    s.total_my_price = ((s.cardList.filter (fun c => c.my_price.isSome)).map
        (fun c => (c.count : Rat) * c.my_price.getD 0)).sum ∧
    s.total_condition_adjusted_price = .ok
      (((s.cardList.filter (fun c => c.price.isSome)).map
        (fun c => c.price.getD 0 * (alookup CONDITION_PRICE_MULTIPLIERS c.condition).getD 1 *
          (c.count : Rat))).sum) := by
  refine ⟨sum_filterMap_total_price _, sum_filterMap_total_my_price _, ?_⟩
  rw [CardSet.total_condition_adjusted_price]
  have hfeq : s.cardList.filter (fun c => c.total_price.isSome) =
      s.cardList.filter (fun c => c.price.isSome) :=
    List.filter_congr (fun c _ => total_price_isSome c)
  rw [hfeq]
  exact sumTCAP_ok _ (fun c hc => (List.mem_filter.1 hc).2)
    (fun c hc => hcond c (List.mem_filter.1 hc).1)

/-- C7 witness: one priced record (count 2, price 5.00) plus one unpriced
record (count 3) totals 10.00 — the unpriced record is excluded, and no
error is raised. -/
theorem claim7_witness :
    exPriceSet.total_price = ((exPriceSet.cardList.filter (fun c => c.price.isSome)).map
        (fun c => c.price.getD 0 * (c.count : Rat))).sum ∧
    exPriceSet.total_price = 10 := by
  have h := claim7_totals exPriceSet (by decide)
  refine ⟨h.1, ?_⟩
  rw [h.1]
  simp [exPriceSet, CardSet.cardList, namedCard, baseCard]
  norm_num

/-- C6 counterexample: a priced card whose condition string is not a key of
the multiplier table makes `condition_adjusted_price` raise `KeyError`
rather than default the multiplier to 1.00 (which would give `10 * 1`). -/
theorem claim6_counterexample :
    ({ baseCard with price := some 10, condition := "Damaged" } : Card).condition_adjusted_price
        = .error .keyError ∧
    ({ baseCard with price := some 10, condition := "Damaged" } : Card).condition_adjusted_price
        ≠ .ok (some (10 * 1)) := by
  constructor
  · decide
  · decide

/-- C6 (amended): for a card whose price is set and whose condition is a
key of the multiplier table, `condition_adjusted_price` is price ×
multiplier, with the table mapping ""/Mint/Near Mint to 1.00, Good
(Lightly Played) to 0.85, Played to 0.70, Heavily Played to 0.50 and Poor
to 0.25; an unrecognized condition raises `KeyError` instead of
defaulting. -/
theorem claim6_amended (c : Card) (p m : Rat) (hp : c.price = some p)
    (hm : alookup CONDITION_PRICE_MULTIPLIERS c.condition = some m) :
    c.condition_adjusted_price = .ok (some (p * m)) ∧
    alookup CONDITION_PRICE_MULTIPLIERS "" = some 1 ∧
    alookup CONDITION_PRICE_MULTIPLIERS "Mint" = some 1 ∧
    alookup CONDITION_PRICE_MULTIPLIERS "Near Mint" = some 1 ∧
    alookup CONDITION_PRICE_MULTIPLIERS "Good (Lightly Played)" = some ((85 : Rat)/100) ∧
    alookup CONDITION_PRICE_MULTIPLIERS "Played" = some ((70 : Rat)/100) ∧
    alookup CONDITION_PRICE_MULTIPLIERS "Heavily Played" = some ((50 : Rat)/100) ∧
    alookup CONDITION_PRICE_MULTIPLIERS "Poor" = some ((25 : Rat)/100) := by
  refine ⟨?_, rfl, rfl, rfl, rfl, rfl, rfl, rfl⟩
  rw [Card.condition_adjusted_price, hp, hm]

/-- C6 witness: price 10.00 with condition "Played" adjusts to 7.00. -/
theorem claim6_witness :
    ({ baseCard with price := some 10, condition := "Played" } : Card).condition_adjusted_price
      = .ok (some 7) := by
  have h := (claim6_amended { baseCard with price := some 10, condition := "Played" }
    10 ((70 : Rat)/100) rfl rfl).1
  rw [h]
  norm_num

/-- C8 (code-bug demonstration): `__add__` stores the operands' own `Card`
objects in the result, so with overlapping identity keys (counts 2 and 3)
the union bumps the store cell referenced by collection A from 2 to 5 —
mutating A's record — and the union's binding for the key is that very
cell (aliasing), while A still references it too. -/
theorem claim8_union_mutates_input :
    ((unionAdd storeEx aRefEx bRefEx).1.get? 0).map Card.count = some 5 ∧
    (storeEx.get? 0).map Card.count = some 2 ∧
    alookup (unionAdd storeEx aRefEx bRefEx).2.cards (namedCard "Shared" 2).identity
      = some 0 ∧
    alookup aRefEx.cards (namedCard "Shared" 2).identity = some 0 := by
  refine ⟨by decide, by decide, by decide, by decide⟩

/-- C9 (code-bug demonstration): whatever the other field values,
`Card.__init__` raises `ValueError` when the `last_updated` value is
absent (pandas NaN or `None`) instead of leaving the field unset. -/
theorem claim9_absent_last_updated (edition card_number name card_type cost rarity : String)
    (count : Int)
    (condition language foil signed artist_proof altered_art misprint promo textless : String)
    (image_url : Option String) :
    cardInit edition card_number name card_type cost rarity count condition language foil
        signed artist_proof altered_art misprint promo textless image_url .pyNaN
      = .error .valueError ∧
    cardInit edition card_number name card_type cost rarity count condition language foil
        signed artist_proof altered_art misprint promo textless image_url .pyNone
      = .error .valueError :=
  ⟨rfl, rfl⟩

/-- C10 counterexample: diffing a one-record collection (count 5) against
an empty comparison set yields a collection whose counts sum to −5, and the
Python `len()` builtin on it raises `ValueError` instead of succeeding. -/
theorem claim10_counterexample :
    pyLen ((singletonSet (namedCard "CardY" 5)).diff_set CardSet.empty)
        = .error .valueError ∧
    CardSet.len ((singletonSet (namedCard "CardY" 5)).diff_set CardSet.empty) = -5 := by
  refine ⟨by decide, by decide⟩

/-- C10 (amended): `__len__` computes the signed sum of the count fields
(for a diff against an empty comparison set, the negated record total of
the reference set); the `len()` builtin returns that sum exactly when it is
non-negative, and raises `ValueError` when it is negative. -/
theorem claim10_amended (A B : CardSet) (hA : A.WFcards) :
    (0 ≤ (A.diff_set B).len → pyLen (A.diff_set B) = .ok (A.diff_set B).len.toNat) ∧
    ((A.diff_set B).len < 0 → pyLen (A.diff_set B) = .error .valueError) ∧
    (B.cards = [] → (A.diff_set B).len = -(A.len)) := by
  refine ⟨?_, ?_, ?_⟩
  · intro h
    rw [pyLen, if_pos h]
  · intro h
    rw [pyLen, if_neg (by omega)]
  · intro hB
    have hBwf : B.WFcards := by
      constructor
      · intro kv hkv
        rw [hB] at hkv
        cases hkv
      · rw [hB]
        exact List.nodup_nil
    have hBlist : B.cardList = [] := by
      rw [CardSet.cardList, hB]
      rfl
    have hemit : ∀ c ∈ A.cardList, diffEmitSelf B c =
        some (c.clone (some (0 - c.count))) := by
      intro c _
      have : B.match' c = none := by
        rw [CardSet.match', hB]
        rfl
      simp [diffEmitSelf, this]
    have hdiffs : A.iter_diff B = A.cardList.map (fun c => c.clone (some (0 - c.count))) := by
      rw [CardSet.iter_diff, hBlist, List.filterMap_nil, List.append_nil,
        filterMap_all_some hemit]
    have hperm : List.Perm (List.insertionSort keyRel (A.iter_diff B)) (A.iter_diff B) :=
      List.perm_insertionSort keyRel (A.iter_diff B)
    have hlen : (A.diff_set B).len = ((A.iter_diff B).map Card.count).sum := by
      rw [CardSet.len, diff_set_cardList A B hA hBwf]
      exact (hperm.map Card.count).sum_eq
    rw [hlen, hdiffs, List.map_map]
    have : (Card.count ∘ fun c => c.clone (some (0 - c.count))) =
        (fun c : Card => (0 : Int) - c.count) := rfl
    rw [this, sum_map_negCount]
    rfl

/-- C10 witness: for a concrete one-record reference set (count 3) diffed
against an empty set, the signed length is the negated total and `len()`
fails. -/
theorem claim10_witness :
    CardSet.len ((singletonSet (namedCard "CardZ" 3)).diff_set CardSet.empty)
        = -(CardSet.len (singletonSet (namedCard "CardZ" 3))) ∧
    pyLen ((singletonSet (namedCard "CardZ" 3)).diff_set CardSet.empty)
        = .error .valueError := by
  have h := claim10_amended (singletonSet (namedCard "CardZ" 3)) CardSet.empty (by decide)
  exact ⟨h.2.2 rfl, h.2.1 (by decide)⟩
